import Mathlib

/-
Verification of the item-matrix rendering of the mlx traceability plugin.

The development shallowly embeds two source files:
  - mlx/traceable_base_node.py   (class TraceableBaseNode and module constants)
  - mlx/directives/item_matrix_directive.py  (class ItemMatrix, function group,
    class ItemMatrixDirective)

Modelling conventions:
  - docutils nodes become the inductive `Node`; mutation of a node's children
    becomes construction of the final children list.
  - The externally supplied collaborators (Sphinx application, builder,
    configuration, the TraceableCollection item/relationship store, and the
    Python `re` module) are records of functions: they are queried, never
    built, by the embedded code, exactly as in the source.
  - Python strings stay `String`; the Python string builtins used by the
    source (`str.split`, `str.replace`) are re-implemented structurally so
    that they compute inside Lean (`pySplit`, `pyReplace`).
  - Fallible Python code (an exception that would escape, e.g. an attribute
    access on a `None` returned by `get_item`) is modelled with `Option`:
    `none` is an escaped exception.
  - `report_warning` calls are modelled by returning the emitted warnings.
-/

/-! ## Python string builtins -/

/-- Helper for `pySplit`: splits a character list at every separator,
keeping empty pieces, like Python `str.split` with an explicit separator. -/
def splitCharAux (sep : Char) : List Char → List Char → List (List Char)
  | [], acc => [acc.reverse]
  | c :: rest, acc =>
    if c = sep then acc.reverse :: splitCharAux sep rest []
    else splitCharAux sep rest (c :: acc)

/-- Python `s.split(sep)` for a one-character separator. -/
def pySplit (sep : Char) (s : String) : List String :=
  (splitCharAux sep s.data []).map String.mk

/-- Helper for `pyReplace`: left-to-right, non-overlapping replacement of a
non-empty pattern. The `Nat` fuel (instantiated with the length of the
scanned list) keeps the recursion structural so that it computes by `rfl`. -/
def replaceCharsFuel (pat rep : List Char) : Nat → List Char → List Char
  | _, [] => []
  | 0, l => l
  | fuel + 1, c :: rest =>
    if pat.isPrefixOf (c :: rest) then
      rep ++ replaceCharsFuel pat rep fuel (List.drop (pat.length - 1) rest)
    else
      c :: replaceCharsFuel pat rep fuel rest

/-- Python `s.replace(pat, rep)`. The source only calls it with the non-empty
patterns `field1`, `field2`, ...; for an empty pattern we return `s`
unchanged. -/
def pyReplace (s pat rep : String) : String :=
  if pat.data = [] then s
  else String.mk (replaceCharsFuel pat.data rep.data s.data.length s.data)

/-- Python repr of a list of strings, as interpolated into warning texts by
`str.format`. -/
def pyListRepr (xs : List String) : String :=
  "[" ++ String.intercalate ", " (xs.map (fun s => "\x27" ++ s ++ "\x27")) ++ "]"

/-! ## The docutils node tree

Only the constructors the two embedded files build are modelled. Attribute
dictionaries are flattened into the constructor arguments actually written by
the source (`refuri`, `refdocname`, `classes`, `ids`, `colwidth`). -/

inductive Node where
  | text (s : String)
  | paragraph (children : List Node)
  | emphasis (rawsource : String) (classes : List String) (children : List Node)
  | inline (rawsource : String) (classes : List String)
  | reference (refuri : Option String) (refdocname : Option String)
      (classes : List String) (children : List Node)
  | target (ids : List String)
  | entry (children : List Node)
  | row (children : List Node)
  | colspec (colwidth : Nat)
  | thead (children : List Node)
  | tbody (children : List Node)
  | tgroup (children : List Node)
  | table (classes : List String) (children : List Node)
  | admonition (classes : List String) (children : List Node)
  | title (children : List Node)
  | container (children : List Node)

/-- Children of a node; `children[0]` accesses in the source go through this. -/
def node_children : Node → List Node
  | Node.text _ => []
  | Node.paragraph cs => cs
  | Node.emphasis _ _ cs => cs
  | Node.inline _ _ => []
  | Node.reference _ _ _ cs => cs
  | Node.target _ => []
  | Node.entry cs => cs
  | Node.row cs => cs
  | Node.colspec _ => []
  | Node.thead cs => cs
  | Node.tbody cs => cs
  | Node.tgroup cs => cs
  | Node.table _ cs => cs
  | Node.admonition _ cs => cs
  | Node.title cs => cs
  | Node.container cs => cs

/-- Appending a child to a container, as `top_node += child` does in
`perform_replacement` (the only place this helper is used). -/
def node_add : Node → Node → Node
  | Node.container cs, c => Node.container (cs ++ [c])
  | n, _ => n

/-- A warning emitted through `report_warning(message, docname, lineno)`. -/
structure Warning where
  message : String
  docname : String
  line : Nat
deriving Repr, DecidableEq

/-! ## External collaborators -/

/-- An item of the traceability collection, as consumed by the embedded code:
`get_id()`, `docname`, `caption`, `is_placeholder()` and
`iter_targets(relationship)` are the only members read. An absent caption is
the empty string (Python falsy). -/
structure TraceableItem where
  id : String
  docname : String
  caption : String
  placeholder : Bool
  iter_targets : String → List String

/-- The TraceableCollection interface queried by `perform_replacement` and
`make_internal_item_ref`. It is built elsewhere (out of scope) and only
queried here, so it is a record of functions. `get_items` takes the regex and
the filter-attributes dictionary; the one-argument calls of the source pass
the empty dictionary. -/
structure TraceableCollection where
  get_items : String → List (String × String) → List String
  get_item : String → Option TraceableItem
  iter_relations : List String
  get_external_targets : String → String → List (String × List String)
  are_related : String → List String → String → Bool

/-- The Sphinx configuration values read by the embedded code.
`traceability_class_names` is total: the extension setup derives it from
`traceability_hyperlink_colors`, so every color tuple has a class name. -/
structure Config where
  traceability_external_relationship_to_url : List (String × String)
  traceability_notifications : List (String × String)
  traceability_hyperlink_colors : List (String × List String)
  traceability_class_names : List String → String

/-- The Sphinx builder: `get_relative_uri` returns `none` where the Python
builder raises `NoUri`, and `isLaTeX` models `isinstance(builder,
LaTeXBuilder)`. -/
structure Builder where
  get_relative_uri : String → String → Option String
  isLaTeX : Bool

/-- The Sphinx application object together with the Python `re` module
(`re_match`, `re_search`) and docutils `nodes.make_id`, which the source
calls but which are external to the repository. `collection` is
`env.traceability_collection`. -/
structure App where
  builder : Builder
  config : Config
  collection : TraceableCollection
  re_match : String → String → Bool
  re_search : String → String → Bool
  make_id : String → String

/-! ## traceable_base_node.py -/

/-- Modelled from the spec: `is_relation_external` itself is not under src/;
the source declares `REGEXP_EXTERNAL_RELATIONSHIP = re.compile('^ext_.*')`
with the comment "External relationship: starts with ext_", so a relation is
external exactly when its id matches that regex, i.e. starts with `ext_`. -/
def is_relation_external (relation : String) : Bool :=
  "ext_".data.isPrefixOf relation.data

/-- Constant `EXTERNAL_LINK_FIELDNAME` of traceable_base_node.py. -/
def EXTERNAL_LINK_FIELDNAME : String := "field"

/-- The `for tgt_str in tgt_strs` loop of `make_external_item_ref`: `cnt` is
incremented before use, so the first field replaces `field1`. -/
def substitute_fields : String → Nat → List String → String
  | url, _, [] => url
  | url, cnt, tgt_str :: rest =>
    substitute_fields (pyReplace url (EXTERNAL_LINK_FIELDNAME ++ toString (cnt + 1)) tgt_str)
      (cnt + 1) rest

/-- `TraceableBaseNode.make_external_item_ref`. Returns `none` where the
Python method falls off the end with `return` (relationship not a key of
`traceability_external_relationship_to_url`). -/
def make_external_item_ref (app : App) (target_text : String) (relationship : String) :
    Option Node :=
  match List.lookup relationship app.config.traceability_external_relationship_to_url with
  | none => none
  | some url₀ =>
    let tgt_strs := pySplit ':' target_text
    let url := substitute_fields url₀ 0 tgt_strs
    let link := Node.reference (some url) none [] [Node.text target_text]
    let targetid := app.make_id target_text
    some (Node.paragraph [Node.target [targetid], link])

/-- `TraceableBaseNode._get_caption_info`: the caption appended to the item
id, and the optional hover node. -/
def get_caption_info (item_info : TraceableItem) (show_caption : Bool) :
    String × Option Node :=
  if item_info.caption ≠ "" then
    if show_caption then (" : " ++ item_info.caption, none)
    else ("", some (Node.inline "" ["popup_caption"]))
  else ("", none)

/-- `TraceableBaseNode._find_colors_for_class`: first regex of the ordered
dictionary that `re.search`-matches the item id wins. -/
def find_colors_for_class (re_search : String → String → Bool)
    (hyperlink_colors : List (String × List String)) (item_id : String) :
    Option (List String) :=
  match hyperlink_colors with
  | [] => none
  | (regex, colors) :: rest =>
    if re_search regex item_id then some colors
    else find_colors_for_class re_search rest item_id

/-- `TraceableBaseNode.has_warned_about_undefined`: the warnings it reports
and its boolean result. -/
def has_warned_about_undefined (item_info : TraceableItem)
    (self_document : String) (self_line : Nat) : List Warning × Bool :=
  if item_info.placeholder then
    ([⟨"Traceability: cannot link to \x27" ++ item_info.id ++ "\x27, item is not defined",
       self_document, self_line⟩], true)
  else ([], false)

/-- The tail of `make_internal_item_ref` that builds the reference paragraph,
shared by the normal path (`notif = none`) and the notification path
(`notif = some (notification_item_id, notification_item)`). A `none`
`get_relative_uri` result models the caught `NoUri`, which leaves `refuri`
and `refdocname` unset. -/
def build_item_reference (app : App) (self_document : String)
    (item_info : TraceableItem) (item_id : String) (show_caption : Bool)
    (notif : Option (String × TraceableItem)) : Node :=
  let ci := get_caption_info item_info show_caption
  let caption := ci.1
  let caption_on_hover := ci.2
  let uri_info : Option (String × String) :=
    match notif with
    | none =>
      match app.builder.get_relative_uri self_document item_info.docname with
      | none => none
      | some uri => some (uri ++ "#" ++ item_id, item_info.docname)
    | some (notification_item_id, notification_item) =>
      match app.builder.get_relative_uri self_document notification_item.docname with
      | none => none
      | some uri => some (uri ++ "#" ++ notification_item_id, notification_item.docname)
  let colors := find_colors_for_class app.re_search
    app.config.traceability_hyperlink_colors item_id
  let ref_classes : List String :=
    match colors with
    | none => []
    | some cs => [app.config.traceability_class_names cs]
  let inner_text := item_id ++ caption
  let innernode :=
    match caption_on_hover with
    | some hover =>
      if app.builder.isLaTeX then Node.emphasis inner_text [] [Node.text inner_text]
      else Node.emphasis inner_text ["has_hidden_caption"] [Node.text inner_text, hover]
    | none => Node.emphasis inner_text [] [Node.text inner_text]
  let newnode := Node.reference (uri_info.map Prod.fst) (uri_info.map Prod.snd)
    ref_classes [innernode]
  Node.paragraph [newnode]

/-- `TraceableBaseNode.make_internal_item_ref`. The result pairs the
returned paragraph with the warnings reported on the way; `none` is an
escaped exception (`get_item` returned `None` and the following attribute
access raised). -/
def make_internal_item_ref (app : App) (self_document : String) (self_line : Nat)
    (item_id : String) (show_caption : Bool) : Option (Node × List Warning) :=
  match app.collection.get_item item_id with
  | none => none
  | some item_info =>
    if item_info.placeholder then
      match List.lookup "undefined-reference" app.config.traceability_notifications with
      | none =>
        some (Node.paragraph [Node.text (item_id ++ " not defined, broken link")],
          (has_warned_about_undefined item_info self_document self_line).1)
      | some notification_item_id =>
        match app.collection.get_item notification_item_id with
        | none =>
          some (Node.paragraph [Node.text (item_id ++ " not defined, broken link")],
            (has_warned_about_undefined item_info self_document self_line).1)
        | some notification_item =>
          some (build_item_reference app self_document item_info item_id show_caption
            (some (notification_item_id, notification_item)), [])
    else
      some (build_item_reference app self_document item_info item_id show_caption none, [])

/-- `TraceableBaseNode.create_top_node`. `perform_replacement` calls it with
`app = none` (the Python default); the `some` branch embeds the
`children[0]` access, which raises (`none`) on an empty paragraph. -/
def create_top_node (self_nocaptions : Bool) (self_document : String) (self_line : Nat)
    (title : String) (app : Option App) : Option (Node × List Warning) :=
  match app with
  | some a =>
    match make_internal_item_ref a self_document self_line title (!self_nocaptions) with
    | none => none
    | some (p, w) =>
      match node_children p with
      | [] => none
      | first :: _ =>
        some (Node.container [Node.admonition ["item"] [Node.title [first]]], w)
  | none =>
    some (Node.container [Node.admonition ["item"] [Node.title [Node.text title]]], [])

/-! ## item_matrix_directive.py -/

/-- docutils `directives.choice`: returns the argument when it is one of the
allowed values, `none` where the original raises `ValueError`. -/
def directives_choice (argument : String) (values : List String) : Option String :=
  if argument ∈ values then some argument else none

/-- Conversion function for the "group" option. -/
def group (argument : String) : Option String :=
  directives_choice argument ["top", "bottom"]

/-- The options of an `ItemMatrix` node, i.e. the attribute dictionary the
directive stores on it (`self['target']`, `self['group']`, ...), plus the
`document`/`line` bookkeeping attributes. -/
structure ItemMatrix where
  title : String
  source : String
  target : List String
  targettitle : List String
  sourcetitle : String
  type : List String
  group : String
  stats : Bool
  nocaptions : Bool
  classes : List String
  filter_attributes : List (String × String)
  document : String
  line : Nat

/-- The `Rows` namedtuple of `perform_replacement`. -/
structure Rows where
  sorted : List Node
  covered : List Node
  uncovered : List Node

/-- `ItemMatrix._store_row`: the row assembled from `left` and `rights` is
appended to `rows.sorted` and to `rows.covered` or `rows.uncovered`
according to the `covered` flag. -/
def store_row (rows : Rows) (left : Node) (rights : List Node) (covered : Bool) : Rows :=
  let row := Node.row (left :: rights)
  { sorted := rows.sorted ++ [row]
    covered := if covered then rows.covered ++ [row] else rows.covered
    uncovered := if covered then rows.uncovered else rows.uncovered ++ [row] }

/-- The `relationships` and `external_relationships` computed at the start of
`perform_replacement` (lines 60-66): with an empty `type` option all
non-external relations of the collection are considered and no external
relationships are processed; otherwise the external relationships are the
listed ones that are external. -/
def matrix_relationships (self : ItemMatrix) (collection : TraceableCollection) :
    List String × List String :=
  if self.type = [] then
    (collection.iter_relations.filter (fun rel => !(is_relation_external rel)), [])
  else
    (self.type, self.type.filter is_relation_external)

/-- Insertion into a Python dict modelled as an association list: an existing
key is overwritten in place, a new key is appended (insertion order). -/
def map_insert {β : Type} (m : List (String × β)) (k : String) (v : β) :
    List (String × β) :=
  if m.any (fun p => p.1 = k) then
    m.map (fun p => if p.1 = k then (k, v) else p)
  else m ++ [(k, v)]

/-- The `ext_relations_to_target_map` dict of `perform_replacement`
(lines 68-71). -/
def ext_relations_to_target_map (collection : TraceableCollection) (source : String) :
    List String → List (String × List (String × List String)) →
    List (String × List (String × List String))
  | [], m => m
  | relation :: rest, m =>
    ext_relations_to_target_map collection source rest
      (map_insert m relation (collection.get_external_targets source relation))

/-- `right += ext_item_ref` for every target column: docutils `+=` ignores a
`None` operand, so a `none` reference (relationship without a configured
URL) leaves the entry unchanged. -/
def add_ext_ref (ext_item_ref : Option Node) (right : List Node) : List Node :=
  match ext_item_ref with
  | none => right
  | some r => right ++ [r]

/-- The inner `for target_id in source_item.iter_targets(ext_relationship)`
loop of the source-row construction (lines 82-86): every external target
appends its reference to all target entries and marks the row covered. -/
def ext_targets_loop (app : App) (ext_relationship : String) :
    List String → List (List Node) × Bool → List (List Node) × Bool
  | [], acc => acc
  | target_id :: rest, acc =>
    let ext_item_ref := make_external_item_ref app target_id ext_relationship
    ext_targets_loop app ext_relationship rest (acc.1.map (add_ext_ref ext_item_ref), true)

/-- The `for ext_relationship in external_relationships` loop of the
source-row construction (lines 81-86). -/
def ext_relationships_loop (app : App) (source_item : TraceableItem) :
    List String → List (List Node) × Bool → List (List Node) × Bool
  | [], acc => acc
  | ext_relationship :: rest, acc =>
    ext_relationships_loop app source_item rest
      (ext_targets_loop app ext_relationship (source_item.iter_targets ext_relationship) acc)

/-- Replaces the element at an index, leaving the list unchanged when the
index is out of range (the source only indexes within range: `idx` ranges
over the target settings and there are `max(1, len(target))` entries). -/
def updateNth {α : Type} (f : α → α) : Nat → List α → List α
  | _, [] => []
  | 0, x :: xs => f x :: xs
  | n + 1, x :: xs => x :: updateNth f n xs

/-- The inner `for target_id in target_ids` loop of the source-row
construction (lines 88-91): a related target that matched the `idx`-th
target regex appends its reference to column `idx` and marks the row
covered. `none` propagates an escaped exception from
`make_internal_item_ref`. -/
def target_ids_loop (app : App) (self_document : String) (self_line : Nat)
    (collection : TraceableCollection) (relationships : List String)
    (source_id : String) (idx : Nat) :
    List String → List (List Node) × Bool × List Warning →
    Option (List (List Node) × Bool × List Warning)
  | [], acc => some acc
  | target_id :: rest, acc =>
    if collection.are_related source_id relationships target_id then
      match make_internal_item_ref app self_document self_line target_id true with
      | none => none
      | some (ref, w) =>
        target_ids_loop app self_document self_line collection relationships source_id idx
          rest (updateNth (fun r => r ++ [ref]) idx acc.1, true, acc.2.2 ++ w)
    else
      target_ids_loop app self_document self_line collection relationships source_id idx
        rest acc

/-- The `for idx, target_ids in enumerate(targets_with_ids)` loop of the
source-row construction (lines 87-91). -/
def targets_with_ids_loop (app : App) (self_document : String) (self_line : Nat)
    (collection : TraceableCollection) (relationships : List String)
    (source_id : String) (idx : Nat) :
    List (List String) → List (List Node) × Bool × List Warning →
    Option (List (List Node) × Bool × List Warning)
  | [], acc => some acc
  | target_ids :: rest, acc =>
    match target_ids_loop app self_document self_line collection relationships source_id
        idx target_ids acc with
    | none => none
    | some acc₁ =>
      targets_with_ids_loop app self_document self_line collection relationships source_id
        (idx + 1) rest acc₁

/-- One iteration of the `for source_id in source_ids` loop (lines 75-92):
the left entry, the target entries and the covered flag of the row for
`source_id`. `none` is an escaped exception (`get_item` returned `None`, or
`make_internal_item_ref` raised). -/
def build_source_row (app : App) (self : ItemMatrix) (collection : TraceableCollection)
    (number_of_columns : Nat) (relationships external_relationships : List String)
    (targets_with_ids : List (List String)) (source_id : String) :
    Option (Node × List Node × Bool × List Warning) :=
  match collection.get_item source_id with
  | none => none
  | some source_item =>
    match make_internal_item_ref app self.document self.line source_id true with
    | none => none
    | some (src_ref, w₀) =>
      let left := Node.entry [src_ref]
      let rights₀ : List (List Node) := List.replicate (number_of_columns - 1) []
      let ext_acc := ext_relationships_loop app source_item external_relationships
        (rights₀, false)
      match targets_with_ids_loop app self.document self.line collection relationships
          source_id 0 targets_with_ids (ext_acc.1, ext_acc.2, w₀) with
      | none => none
      | some (rights, covered, warns) =>
        some (left, rights.map Node.entry, covered, warns)

/-- The `for source_id in source_ids` loop (lines 75-92), threading the
`rows` accumulator through `_store_row`. -/
def source_ids_loop (app : App) (self : ItemMatrix) (collection : TraceableCollection)
    (number_of_columns : Nat) (relationships external_relationships : List String)
    (targets_with_ids : List (List String)) :
    List String → Rows × List Warning → Option (Rows × List Warning)
  | [], acc => some acc
  | source_id :: rest, acc =>
    match build_source_row app self collection number_of_columns relationships
        external_relationships targets_with_ids source_id with
    | none => none
    | some (left, rights, covered, w) =>
      source_ids_loop app self collection number_of_columns relationships
        external_relationships targets_with_ids rest
        (store_row acc.1 left rights covered, acc.2 ++ w)

/-- The inner `for target_id in item_ids` loop of the external-source rows
(lines 101-104). -/
def ext_row_ids_loop (app : App) (self_document : String) (self_line : Nat)
    (target_regex : String) (idx : Nat) :
    List String → List (List Node) × Bool × List Warning →
    Option (List (List Node) × Bool × List Warning)
  | [], acc => some acc
  | target_id :: rest, acc =>
    if app.re_match target_regex target_id then
      match make_internal_item_ref app self_document self_line target_id true with
      | none => none
      | some (ref, w) =>
        ext_row_ids_loop app self_document self_line target_regex idx rest
          (updateNth (fun r => r ++ [ref]) idx acc.1, true, acc.2.2 ++ w)
    else
      ext_row_ids_loop app self_document self_line target_regex idx rest acc

/-- The `for idx, target_regex in enumerate(self['target'])` loop of the
external-source rows (lines 100-104). -/
def ext_row_regex_loop (app : App) (self_document : String) (self_line : Nat)
    (item_ids : List String) (idx : Nat) :
    List String → List (List Node) × Bool × List Warning →
    Option (List (List Node) × Bool × List Warning)
  | [], acc => some acc
  | target_regex :: rest, acc =>
    match ext_row_ids_loop app self_document self_line target_regex idx item_ids acc with
    | none => none
    | some acc₁ =>
      ext_row_regex_loop app self_document self_line item_ids (idx + 1) rest acc₁

/-- One iteration of the `for ext_source, item_ids in ...` loop
(lines 95-106): the row for an external target. -/
def build_ext_row (app : App) (self : ItemMatrix) (number_of_columns : Nat)
    (ext_rel ext_source : String) (item_ids : List String) :
    Option (Node × List Node × Bool × List Warning) :=
  let left := Node.entry (add_ext_ref (make_external_item_ref app ext_source ext_rel) [])
  let rights₀ : List (List Node) := List.replicate (number_of_columns - 1) []
  match ext_row_regex_loop app self.document self.line item_ids 0 self.target
      (rights₀, false, []) with
  | none => none
  | some (rights, covered, warns) =>
    some (left, rights.map Node.entry, covered, warns)

/-- The `for ext_source, item_ids in ext_targets_to_item_ids.items()` loop
(lines 95-106). -/
def ext_sources_loop (app : App) (self : ItemMatrix) (number_of_columns : Nat)
    (ext_rel : String) :
    List (String × List String) → Rows × List Warning → Option (Rows × List Warning)
  | [], acc => some acc
  | (ext_source, item_ids) :: rest, acc =>
    match build_ext_row app self number_of_columns ext_rel ext_source item_ids with
    | none => none
    | some (left, rights, covered, w) =>
      ext_sources_loop app self number_of_columns ext_rel rest
        (store_row acc.1 left rights covered, acc.2 ++ w)

/-- The `for ext_rel, ext_targets_to_item_ids in
ext_relations_to_target_map.items()` loop (lines 94-106). -/
def ext_map_loop (app : App) (self : ItemMatrix) (number_of_columns : Nat) :
    List (String × List (String × List String)) → Rows × List Warning →
    Option (Rows × List Warning)
  | [], acc => some acc
  | (ext_rel, tmap) :: rest, acc =>
    match ext_sources_loop app self number_of_columns ext_rel tmap acc with
    | none => none
    | some acc₁ => ext_map_loop app self number_of_columns rest acc₁

/-- The row-building phase of `perform_replacement` (lines 33-106): the
`Rows` namedtuple after both loops, with the warnings reported on the way. -/
def build_rows (app : App) (collection : TraceableCollection) (self : ItemMatrix) :
    Option (Rows × List Warning) :=
  let number_of_columns := max 2 (self.target.length + 1)
  let source_ids := collection.get_items self.source self.filter_attributes
  let targets_with_ids := self.target.map (fun target_regex => collection.get_items target_regex [])
  let rels := matrix_relationships self collection
  let ext_map := ext_relations_to_target_map collection self.source rels.2 []
  match source_ids_loop app self collection number_of_columns rels.1 rels.2
      targets_with_ids source_ids (⟨[], [], []⟩, []) with
  | none => none
  | some acc₁ => ext_map_loop app self number_of_columns ext_map acc₁

/-- The table-body selection on the `group` option (lines 109-116). An
unrecognised `group` value matches no branch and leaves the body empty; the
option converter only ever produces `top`, `bottom` or the empty default. -/
def matrix_body (self : ItemMatrix) (rows : Rows) : List Node :=
  if self.group = "" then rows.sorted
  else if self.group = "top" then rows.uncovered ++ rows.covered
  else if self.group = "bottom" then rows.covered ++ rows.uncovered
  else []

/-- The heading entries (lines 47-48): the source title followed by the
target titles. -/
def matrix_headings (self : ItemMatrix) : List Node :=
  (self.sourcetitle :: self.targettitle).map
    (fun title => Node.entry [Node.paragraph [Node.text title]])

/-- The statistics line (lines 118-126): `int(100 * covered / total)` with
the `ZeroDivisionError` caught as 0. -/
def matrix_statistics (rows : Rows) : String :=
  let count_total := rows.sorted.length
  let count_covered := rows.covered.length
  let percentage := if count_total = 0 then 0 else 100 * count_covered / count_total
  "Statistics: " ++ toString count_covered ++ " out of " ++ toString count_total ++
    " covered: " ++ toString percentage ++ "%"

/-- `ItemMatrix.perform_replacement`. The result is the node passed to
`replace_self` (the single replacement of the ItemMatrix node in the
document tree) together with the warnings reported; `none` is an escaped
exception. The table's classes are those of the node: `nodes.table()`
starts with an empty class list and `extend` is skipped only when the
node's list is empty. -/
def perform_replacement (app : App) (collection : TraceableCollection)
    (self : ItemMatrix) : Option (Node × List Warning) :=
  let number_of_columns := max 2 (self.target.length + 1)
  match create_top_node self.nocaptions self.document self.line self.title none with
  | none => none
  | some (top_node, w_top) =>
    match build_rows app collection self with
    | none => none
    | some (rows, warns) =>
      let tbody := Node.tbody (matrix_body self rows)
      let tgroup := Node.tgroup
        (List.replicate number_of_columns (Node.colspec 5) ++
          [Node.thead [Node.row (matrix_headings self)], tbody])
      let table := Node.table self.classes [tgroup]
      let disp := matrix_statistics rows
      let top₁ :=
        if self.stats then node_add top_node (Node.paragraph [Node.text disp])
        else top_node
      some (node_add top₁ table, w_top ++ warns)

/-- `ItemMatrixDirective.run`, taking the processed option values (title,
option lists and flags) as arguments: option parsing lives in
`TraceableBaseDirective.process_options` outside the embedded files. The
result is the returned node list together with the warning of lines 214-220;
the relationship check of `check_relationships` warns about unknown
relationship types in external code and is not modelled. -/
def itemMatrixDirective_run (env_docname : String) (lineno : Nat)
    (classes : List String) (title : String)
    (filter_attributes : List (String × String)) (target : List String)
    (source : String) (targettitle : List String) (sourcetitle : String)
    (type_option : List String) (group_option : String)
    (stats nocaptions : Bool) : List ItemMatrix × List Warning :=
  let item_matrix_node : ItemMatrix :=
    { title := title, source := source, target := target, targettitle := targettitle,
      sourcetitle := sourcetitle, type := type_option, group := group_option,
      stats := stats, nocaptions := nocaptions, classes := classes,
      filter_attributes := filter_attributes, document := env_docname, line := lineno }
  let number_of_targets := target.length
  let number_of_targettitles := targettitle.length
  let warnings : List Warning :=
    if number_of_targets > 1 ∧ number_of_targets ≠ number_of_targettitles then
      [⟨"Item-matrix directive should have the same number of \x27target\x27 attributes " ++
          "as \x27target-title\x27 attributes. Got target: " ++ pyListRepr target ++
          " and targettitle: " ++ pyListRepr targettitle,
        env_docname, lineno⟩]
    else []
  ([item_matrix_node], warnings)

/-! ## Predicates used by the statements -/

/-- Shape of a table-body row as built by `_store_row`: one source entry
followed by the target entries. -/
def row_shape (number_of_columns : Nat) (r : Node) : Prop :=
  ∃ cs rs, r = Node.row (Node.entry cs :: rs) ∧ rs.length = number_of_columns - 1 ∧
    ∀ e ∈ rs, ∃ cs₂, e = Node.entry cs₂

/-- A predicate holding for every row of all three lists of a `Rows`. -/
def rows_all (P : Node → Prop) (rows : Rows) : Prop :=
  (∀ r ∈ rows.sorted, P r) ∧ (∀ r ∈ rows.covered, P r) ∧ (∀ r ∈ rows.uncovered, P r)

/-! ## Concrete fixtures

A small concrete document set used to instantiate the theorems: one source
item `S` (matched by the source regex `src`), one target item `T` (matched by
the target regex `tgt`), related to `S`; an undefined (placeholder) item `U`;
a notification item `NOTIF`; and one external relationship `ext_jira` with a
configured URL. -/

def itemS : TraceableItem :=
  ⟨"S", "doc_s", "", false, fun rel => if rel = "ext_jira" then ["JIRA:1"] else []⟩

def itemT : TraceableItem := ⟨"T", "doc_t", "", false, fun _ => []⟩

def itemU : TraceableItem := ⟨"U", "doc_u", "", true, fun _ => []⟩

def itemN : TraceableItem := ⟨"NOTIF", "doc_n", "", false, fun _ => []⟩

def wCollection : TraceableCollection :=
  { get_items := fun regex _ =>
      if regex = "src" then ["S"] else if regex = "tgt" then ["T"] else []
    get_item := fun i =>
      if i = "S" then some itemS else if i = "T" then some itemT
      else if i = "U" then some itemU else if i = "NOTIF" then some itemN else none
    iter_relations := ["fulfills", "ext_jira"]
    get_external_targets := fun _ rel =>
      if rel = "ext_jira" then [("JIRA:1", ["T"])] else []
    are_related := fun s _ t => decide (s = "S") && decide (t = "T") }

def wBuilder : Builder := ⟨fun _ docname => some ("rel/" ++ docname), false⟩

def wConfig : Config :=
  { traceability_external_relationship_to_url := [("ext_jira", "http://tracker/field1/field2")]
    traceability_notifications := []
    traceability_hyperlink_colors := []
    traceability_class_names := fun _ => "" }

def wApp : App :=
  ⟨wBuilder, wConfig, wCollection,
   fun regex s => decide (regex = "tgt") && decide (s = "T"),
   fun _ _ => false, fun s => s⟩

def wConfigNotif : Config :=
  { wConfig with traceability_notifications := [("undefined-reference", "NOTIF")] }

def wAppNotif : App := { wApp with config := wConfigNotif }

def wSelf : ItemMatrix :=
  { title := "Matrix", source := "src", target := ["tgt"], targettitle := ["Target"],
    sourcetitle := "Source", type := [], group := "", stats := true, nocaptions := true,
    classes := [], filter_attributes := [], document := "doc", line := 7 }

/-- The reference paragraph the fixture produces for item `S`. -/
def wRefS : Node :=
  Node.paragraph [Node.reference (some "rel/doc_s#S") (some "doc_s") []
    [Node.emphasis "S" [] [Node.text "S"]]]

/-- The reference paragraph the fixture produces for item `T`. -/
def wRefT : Node :=
  Node.paragraph [Node.reference (some "rel/doc_t#T") (some "doc_t") []
    [Node.emphasis "T" [] [Node.text "T"]]]

/-- The single table row the fixture produces. -/
def wRowS : Node := Node.row [Node.entry [wRefS], Node.entry [wRefT]]

/-- The `Rows` value the fixture produces. -/
def wRows : Rows := ⟨[wRowS], [wRowS], []⟩

/-- An arbitrary sequence of `_store_row` calls, starting from the empty
`Rows` that `perform_replacement` creates at line 74. -/
def store_rows (specs : List (Node × List Node × Bool)) : Rows :=
  specs.foldl (fun rows s => store_row rows s.1 s.2.1 s.2.2) ⟨[], [], []⟩

/-! ## Facts about `_store_row` -/

theorem store_row_sorted_eq (rows : Rows) (l : Node) (rs : List Node) (c : Bool) :
    (store_row rows l rs c).sorted = rows.sorted ++ [Node.row (l :: rs)] := rfl

theorem store_row_covered_eq (rows : Rows) (l : Node) (rs : List Node) (c : Bool) :
    (store_row rows l rs c).covered =
      if c then rows.covered ++ [Node.row (l :: rs)] else rows.covered := rfl

theorem store_row_uncovered_eq (rows : Rows) (l : Node) (rs : List Node) (c : Bool) :
    (store_row rows l rs c).uncovered =
      if c then rows.uncovered else rows.uncovered ++ [Node.row (l :: rs)] := rfl

theorem store_row_perm (rows : Rows) (l : Node) (rs : List Node) (c : Bool)
    (h : rows.sorted.Perm (rows.covered ++ rows.uncovered)) :
    (store_row rows l rs c).sorted.Perm
      ((store_row rows l rs c).covered ++ (store_row rows l rs c).uncovered) := by
  have h₁ := h.append_right [Node.row (l :: rs)]
  rw [store_row_sorted_eq, store_row_covered_eq, store_row_uncovered_eq]
  cases c
  · simpa [List.append_assoc] using h₁
  · simp only [if_pos rfl]
    refine h₁.trans ?_
    have h₂ : ((rows.covered ++ [Node.row (l :: rs)]) ++ rows.uncovered).Perm
        ((rows.covered ++ rows.uncovered) ++ [Node.row (l :: rs)]) := by
      simp only [List.append_assoc]
      exact List.Perm.append_left _ List.perm_append_comm
    exact h₂.symm

theorem foldl_store_row_inv (Q : Rows → Prop)
    (hstep : ∀ rows l rs c, Q rows → Q (store_row rows l rs c)) :
    ∀ (specs : List (Node × List Node × Bool)) (start : Rows), Q start →
      Q (specs.foldl (fun rows s => store_row rows s.1 s.2.1 s.2.2) start) := by
  intro specs
  induction specs with
  | nil => intro start h; exact h
  | cons s rest ih => intro start h; exact ih _ (hstep _ _ _ _ h)

/-- C8: every `_store_row` call appends the row to `rows.sorted` and to
exactly one of `rows.covered` (when the covered flag is set) or
`rows.uncovered` (otherwise), so after any sequence of `_store_row` calls
the sorted list is as long as the covered and uncovered lists together and
the two lists partition it (the sorted list is a permutation of their
concatenation). -/
theorem store_row_partition (specs : List (Node × List Node × Bool)) :
    (store_rows specs).sorted.length =
      (store_rows specs).covered.length + (store_rows specs).uncovered.length ∧
    (store_rows specs).sorted.Perm
      ((store_rows specs).covered ++ (store_rows specs).uncovered) ∧
    ∀ rows l rs c,
      (store_row rows l rs c).sorted = rows.sorted ++ [Node.row (l :: rs)] ∧
      (store_row rows l rs c).covered =
        (if c then rows.covered ++ [Node.row (l :: rs)] else rows.covered) ∧
      (store_row rows l rs c).uncovered =
        (if c then rows.uncovered else rows.uncovered ++ [Node.row (l :: rs)]) := by
  have hperm : (store_rows specs).sorted.Perm
      ((store_rows specs).covered ++ (store_rows specs).uncovered) :=
    foldl_store_row_inv (fun r => r.sorted.Perm (r.covered ++ r.uncovered))
      (fun rows l rs c h => store_row_perm rows l rs c h) specs ⟨[], [], []⟩
      (List.Perm.refl _)
  refine ⟨?_, hperm, fun rows l rs c => ⟨rfl, rfl, rfl⟩⟩
  have hlen := hperm.length_eq
  simpa using hlen

/-! ## Invariants threaded through the row-building loops -/

theorem source_ids_loop_inv (app : App) (self : ItemMatrix)
    (collection : TraceableCollection) (noc : Nat) (rels exts : List String)
    (twi : List (List String)) (Q : Rows → Prop)
    (hstep : ∀ rows sid l rs c w,
      build_source_row app self collection noc rels exts twi sid = some (l, rs, c, w) →
      Q rows → Q (store_row rows l rs c)) :
    ∀ (ids : List String) (acc res : Rows × List Warning),
      source_ids_loop app self collection noc rels exts twi ids acc = some res →
      Q acc.1 → Q res.1 := by
  intro ids
  induction ids with
  | nil =>
    intro acc res h hQ
    simp only [source_ids_loop, Option.some.injEq] at h
    rw [← h]
    exact hQ
  | cons sid rest ih =>
    intro acc res h hQ
    simp only [source_ids_loop] at h
    cases hb : build_source_row app self collection noc rels exts twi sid with
    | none => rw [hb] at h; cases h
    | some v =>
      rw [hb] at h
      obtain ⟨l, rs, c, w⟩ := v
      exact ih _ _ h (hstep _ _ _ _ _ _ hb hQ)

theorem ext_sources_loop_inv (app : App) (self : ItemMatrix) (noc : Nat)
    (ext_rel : String) (Q : Rows → Prop)
    (hstep : ∀ rows ext_source item_ids l rs c w,
      build_ext_row app self noc ext_rel ext_source item_ids = some (l, rs, c, w) →
      Q rows → Q (store_row rows l rs c)) :
    ∀ (m : List (String × List String)) (acc res : Rows × List Warning),
      ext_sources_loop app self noc ext_rel m acc = some res →
      Q acc.1 → Q res.1 := by
  intro m
  induction m with
  | nil =>
    intro acc res h hQ
    simp only [ext_sources_loop, Option.some.injEq] at h
    rw [← h]
    exact hQ
  | cons p rest ih =>
    obtain ⟨ext_source, item_ids⟩ := p
    intro acc res h hQ
    simp only [ext_sources_loop] at h
    cases hb : build_ext_row app self noc ext_rel ext_source item_ids with
    | none => rw [hb] at h; cases h
    | some v =>
      rw [hb] at h
      obtain ⟨l, rs, c, w⟩ := v
      exact ih _ _ h (hstep _ _ _ _ _ _ _ hb hQ)

theorem ext_map_loop_inv (app : App) (self : ItemMatrix) (noc : Nat) (Q : Rows → Prop)
    (hstep : ∀ rows ext_rel ext_source item_ids l rs c w,
      build_ext_row app self noc ext_rel ext_source item_ids = some (l, rs, c, w) →
      Q rows → Q (store_row rows l rs c)) :
    ∀ (m : List (String × List (String × List String))) (acc res : Rows × List Warning),
      ext_map_loop app self noc m acc = some res → Q acc.1 → Q res.1 := by
  intro m
  induction m with
  | nil =>
    intro acc res h hQ
    simp only [ext_map_loop, Option.some.injEq] at h
    rw [← h]
    exact hQ
  | cons p rest ih =>
    obtain ⟨ext_rel, tmap⟩ := p
    intro acc res h hQ
    simp only [ext_map_loop] at h
    cases hs : ext_sources_loop app self noc ext_rel tmap acc with
    | none => rw [hs] at h; cases h
    | some acc₁ =>
      rw [hs] at h
      exact ih _ _ h (ext_sources_loop_inv app self noc ext_rel Q
        (fun rows es ii l rs c w hb hQ₂ => hstep rows ext_rel es ii l rs c w hb hQ₂)
        tmap acc acc₁ hs hQ)

theorem build_rows_inv (app : App) (collection : TraceableCollection) (self : ItemMatrix)
    (Q : Rows → Prop) (hQ0 : Q ⟨[], [], []⟩)
    (hsrc : ∀ rows sid l rs c w,
      build_source_row app self collection (max 2 (self.target.length + 1))
        (matrix_relationships self collection).1 (matrix_relationships self collection).2
        (self.target.map (fun target_regex => collection.get_items target_regex [])) sid =
        some (l, rs, c, w) → Q rows → Q (store_row rows l rs c))
    (hext : ∀ rows ext_rel ext_source item_ids l rs c w,
      build_ext_row app self (max 2 (self.target.length + 1)) ext_rel ext_source item_ids =
        some (l, rs, c, w) → Q rows → Q (store_row rows l rs c)) :
    ∀ (rows : Rows) (warns : List Warning),
      build_rows app collection self = some (rows, warns) → Q rows := by
  intro rows warns h
  simp only [build_rows] at h
  cases hs : source_ids_loop app self collection (max 2 (self.target.length + 1))
      (matrix_relationships self collection).1 (matrix_relationships self collection).2
      (self.target.map (fun target_regex => collection.get_items target_regex []))
      (collection.get_items self.source self.filter_attributes) (⟨[], [], []⟩, []) with
  | none => rw [hs] at h; cases h
  | some acc₁ =>
    rw [hs] at h
    have hQ₁ : Q acc₁.1 :=
      source_ids_loop_inv app self collection (max 2 (self.target.length + 1))
        (matrix_relationships self collection).1 (matrix_relationships self collection).2
        (self.target.map (fun target_regex => collection.get_items target_regex []))
        Q hsrc _ _ _ hs hQ0
    have hfin := ext_map_loop_inv app self (max 2 (self.target.length + 1)) Q hext
      _ _ _ h hQ₁
    exact hfin

theorem build_rows_perm (app : App) (collection : TraceableCollection) (self : ItemMatrix)
    (rows : Rows) (warns : List Warning)
    (h : build_rows app collection self = some (rows, warns)) :
    rows.sorted.Perm (rows.covered ++ rows.uncovered) :=
  build_rows_inv app collection self
    (fun r => r.sorted.Perm (r.covered ++ r.uncovered)) (List.Perm.refl _)
    (fun rows _ l rs c _ _ hQ => store_row_perm rows l rs c hQ)
    (fun rows _ _ _ l rs c _ _ hQ => store_row_perm rows l rs c hQ)
    rows warns h

/-! ## Lengths and covered flags of the per-row loops -/

theorem updateNth_length {α : Type} (f : α → α) :
    ∀ (n : Nat) (xs : List α), (updateNth f n xs).length = xs.length := by
  intro n xs
  induction xs generalizing n with
  | nil => cases n <;> rfl
  | cons x rest ih => cases n with
    | zero => rfl
    | succ m => simp only [updateNth, List.length_cons, ih m]

theorem ext_targets_loop_fst_length (app : App) (ext_relationship : String) :
    ∀ (ts : List String) (acc : List (List Node) × Bool),
      (ext_targets_loop app ext_relationship ts acc).1.length = acc.1.length := by
  intro ts
  induction ts with
  | nil => intro acc; rfl
  | cons t rest ih =>
    intro acc
    simp only [ext_targets_loop, ih, List.length_map]

theorem ext_relationships_loop_fst_length (app : App) (source_item : TraceableItem) :
    ∀ (rels : List String) (acc : List (List Node) × Bool),
      (ext_relationships_loop app source_item rels acc).1.length = acc.1.length := by
  intro rels
  induction rels with
  | nil => intro acc; rfl
  | cons rel rest ih =>
    intro acc
    simp only [ext_relationships_loop, ih, ext_targets_loop_fst_length]

theorem target_ids_loop_fst_length (app : App) (self_document : String) (self_line : Nat)
    (collection : TraceableCollection) (relationships : List String) (source_id : String)
    (idx : Nat) :
    ∀ (ts : List String) (acc res : List (List Node) × Bool × List Warning),
      target_ids_loop app self_document self_line collection relationships source_id idx
        ts acc = some res → res.1.length = acc.1.length := by
  intro ts
  induction ts with
  | nil =>
    intro acc res h
    simp only [target_ids_loop, Option.some.injEq] at h
    rw [← h]
  | cons t rest ih =>
    intro acc res h
    simp only [target_ids_loop] at h
    by_cases hrel : collection.are_related source_id relationships t
    · rw [if_pos hrel] at h
      cases hm : make_internal_item_ref app self_document self_line t true with
      | none => rw [hm] at h; cases h
      | some v =>
        rw [hm] at h
        obtain ⟨ref, w⟩ := v
        have := ih _ _ h
        rw [this]
        simp only [updateNth_length]
    · rw [if_neg hrel] at h
      exact ih _ _ h

theorem targets_with_ids_loop_fst_length (app : App) (self_document : String)
    (self_line : Nat) (collection : TraceableCollection) (relationships : List String)
    (source_id : String) :
    ∀ (twi : List (List String)) (idx : Nat) (acc res : List (List Node) × Bool × List Warning),
      targets_with_ids_loop app self_document self_line collection relationships source_id
        idx twi acc = some res → res.1.length = acc.1.length := by
  intro twi
  induction twi with
  | nil =>
    intro idx acc res h
    simp only [targets_with_ids_loop, Option.some.injEq] at h
    rw [← h]
  | cons tids rest ih =>
    intro idx acc res h
    simp only [targets_with_ids_loop] at h
    cases hm : target_ids_loop app self_document self_line collection relationships
        source_id idx tids acc with
    | none => rw [hm] at h; cases h
    | some acc₁ =>
      rw [hm] at h
      have h₁ := target_ids_loop_fst_length app self_document self_line collection
        relationships source_id idx tids acc acc₁ hm
      have h₂ := ih _ _ _ h
      rw [h₂, h₁]

theorem ext_row_ids_loop_fst_length (app : App) (self_document : String) (self_line : Nat)
    (target_regex : String) (idx : Nat) :
    ∀ (ts : List String) (acc res : List (List Node) × Bool × List Warning),
      ext_row_ids_loop app self_document self_line target_regex idx ts acc = some res →
      res.1.length = acc.1.length := by
  intro ts
  induction ts with
  | nil =>
    intro acc res h
    simp only [ext_row_ids_loop, Option.some.injEq] at h
    rw [← h]
  | cons t rest ih =>
    intro acc res h
    simp only [ext_row_ids_loop] at h
    by_cases hrel : app.re_match target_regex t = true
    · rw [if_pos hrel] at h
      cases hm : make_internal_item_ref app self_document self_line t true with
      | none => rw [hm] at h; cases h
      | some v =>
        rw [hm] at h
        obtain ⟨ref, w⟩ := v
        have := ih _ _ h
        rw [this]
        simp only [updateNth_length]
    · rw [if_neg hrel] at h
      exact ih _ _ h

theorem ext_row_regex_loop_fst_length (app : App) (self_document : String)
    (self_line : Nat) (item_ids : List String) :
    ∀ (regexes : List String) (idx : Nat) (acc res : List (List Node) × Bool × List Warning),
      ext_row_regex_loop app self_document self_line item_ids idx regexes acc = some res →
      res.1.length = acc.1.length := by
  intro regexes
  induction regexes with
  | nil =>
    intro idx acc res h
    simp only [ext_row_regex_loop, Option.some.injEq] at h
    rw [← h]
  | cons regex rest ih =>
    intro idx acc res h
    simp only [ext_row_regex_loop] at h
    cases hm : ext_row_ids_loop app self_document self_line regex idx item_ids acc with
    | none => rw [hm] at h; cases h
    | some acc₁ =>
      rw [hm] at h
      have h₁ := ext_row_ids_loop_fst_length app self_document self_line regex idx
        item_ids acc acc₁ hm
      have h₂ := ih _ _ _ h
      rw [h₂, h₁]

theorem ext_targets_loop_snd (app : App) (ext_relationship : String) :
    ∀ (ts : List String) (acc : List (List Node) × Bool),
      (ext_targets_loop app ext_relationship ts acc).2 = (acc.2 || !ts.isEmpty) := by
  intro ts
  induction ts with
  | nil => intro acc; simp [ext_targets_loop]
  | cons t rest ih =>
    intro acc
    simp [ext_targets_loop, ih]

theorem ext_relationships_loop_snd (app : App) (source_item : TraceableItem) :
    ∀ (rels : List String) (acc : List (List Node) × Bool),
      (ext_relationships_loop app source_item rels acc).2 =
        (acc.2 || rels.any (fun rel => !(source_item.iter_targets rel).isEmpty)) := by
  intro rels
  induction rels with
  | nil => intro acc; simp [ext_relationships_loop]
  | cons rel rest ih =>
    intro acc
    simp only [ext_relationships_loop, ih, ext_targets_loop_snd, List.any_cons,
      Bool.or_assoc]

theorem target_ids_loop_snd (app : App) (self_document : String) (self_line : Nat)
    (collection : TraceableCollection) (relationships : List String) (source_id : String)
    (idx : Nat) :
    ∀ (ts : List String) (acc res : List (List Node) × Bool × List Warning),
      target_ids_loop app self_document self_line collection relationships source_id idx
        ts acc = some res →
      res.2.1 = (acc.2.1 ||
        ts.any (fun t => collection.are_related source_id relationships t)) := by
  intro ts
  induction ts with
  | nil =>
    intro acc res h
    simp only [target_ids_loop, Option.some.injEq] at h
    rw [← h]
    simp
  | cons t rest ih =>
    intro acc res h
    simp only [target_ids_loop] at h
    by_cases hrel : collection.are_related source_id relationships t
    · rw [if_pos hrel] at h
      cases hm : make_internal_item_ref app self_document self_line t true with
      | none => rw [hm] at h; cases h
      | some v =>
        rw [hm] at h
        obtain ⟨ref, w⟩ := v
        have := ih _ _ h
        simp only [List.any_cons, hrel, Bool.true_or, Bool.or_true]
        simpa using this
    · rw [if_neg hrel] at h
      have := ih _ _ h
      rw [this]
      simp only [List.any_cons]
      have hrel' : collection.are_related source_id relationships t = false := by
        simpa using hrel
      rw [hrel']
      simp

theorem targets_with_ids_loop_snd (app : App) (self_document : String) (self_line : Nat)
    (collection : TraceableCollection) (relationships : List String) (source_id : String) :
    ∀ (twi : List (List String)) (idx : Nat) (acc res : List (List Node) × Bool × List Warning),
      targets_with_ids_loop app self_document self_line collection relationships source_id
        idx twi acc = some res →
      res.2.1 = (acc.2.1 ||
        twi.any (fun tids =>
          tids.any (fun t => collection.are_related source_id relationships t))) := by
  intro twi
  induction twi with
  | nil =>
    intro idx acc res h
    simp only [targets_with_ids_loop, Option.some.injEq] at h
    rw [← h]
    simp
  | cons tids rest ih =>
    intro idx acc res h
    simp only [targets_with_ids_loop] at h
    cases hm : target_ids_loop app self_document self_line collection relationships
        source_id idx tids acc with
    | none => rw [hm] at h; cases h
    | some acc₁ =>
      rw [hm] at h
      have h₁ := target_ids_loop_snd app self_document self_line collection relationships
        source_id idx tids acc acc₁ hm
      have h₂ := ih _ _ _ h
      rw [h₂, h₁]
      simp [Bool.or_assoc]

theorem ext_row_ids_loop_snd (app : App) (self_document : String) (self_line : Nat)
    (target_regex : String) (idx : Nat) :
    ∀ (ts : List String) (acc res : List (List Node) × Bool × List Warning),
      ext_row_ids_loop app self_document self_line target_regex idx ts acc = some res →
      res.2.1 = (acc.2.1 || ts.any (fun t => app.re_match target_regex t)) := by
  intro ts
  induction ts with
  | nil =>
    intro acc res h
    simp only [ext_row_ids_loop, Option.some.injEq] at h
    rw [← h]
    simp
  | cons t rest ih =>
    intro acc res h
    simp only [ext_row_ids_loop] at h
    by_cases hrel : app.re_match target_regex t = true
    · rw [if_pos hrel] at h
      cases hm : make_internal_item_ref app self_document self_line t true with
      | none => rw [hm] at h; cases h
      | some v =>
        rw [hm] at h
        obtain ⟨ref, w⟩ := v
        have := ih _ _ h
        simp only [List.any_cons, hrel, Bool.true_or, Bool.or_true]
        simpa using this
    · rw [if_neg hrel] at h
      have := ih _ _ h
      rw [this]
      simp only [List.any_cons]
      have hrel' : app.re_match target_regex t = false := by
        simpa using hrel
      rw [hrel']
      simp

theorem ext_row_regex_loop_snd (app : App) (self_document : String) (self_line : Nat)
    (item_ids : List String) :
    ∀ (regexes : List String) (idx : Nat) (acc res : List (List Node) × Bool × List Warning),
      ext_row_regex_loop app self_document self_line item_ids idx regexes acc = some res →
      res.2.1 = (acc.2.1 ||
        regexes.any (fun regex => item_ids.any (fun t => app.re_match regex t))) := by
  intro regexes
  induction regexes with
  | nil =>
    intro idx acc res h
    simp only [ext_row_regex_loop, Option.some.injEq] at h
    rw [← h]
    simp
  | cons regex rest ih =>
    intro idx acc res h
    simp only [ext_row_regex_loop] at h
    cases hm : ext_row_ids_loop app self_document self_line regex idx item_ids acc with
    | none => rw [hm] at h; cases h
    | some acc₁ =>
      rw [hm] at h
      have h₁ := ext_row_ids_loop_snd app self_document self_line regex idx item_ids
        acc acc₁ hm
      have h₂ := ih _ _ _ h
      rw [h₂, h₁]
      simp [Bool.or_assoc]

/-! ## Inversion of the row builders -/

theorem build_source_row_spec (app : App) (self : ItemMatrix)
    (collection : TraceableCollection) (noc : Nat) (rels exts : List String)
    (twi : List (List String)) (sid : String) (l : Node) (rs : List Node) (c : Bool)
    (w : List Warning)
    (h : build_source_row app self collection noc rels exts twi sid = some (l, rs, c, w)) :
    ∃ source_item, collection.get_item sid = some source_item ∧
      (∃ cs, l = Node.entry cs) ∧ rs.length = noc - 1 ∧
      (∀ e ∈ rs, ∃ cs₂, e = Node.entry cs₂) ∧
      c = (exts.any (fun rel => !(source_item.iter_targets rel).isEmpty) ||
        twi.any (fun tids =>
          tids.any (fun t => collection.are_related sid rels t))) := by
  cases hg : collection.get_item sid with
  | none => simp [build_source_row, hg] at h
  | some source_item =>
    cases hm : make_internal_item_ref app self.document self.line sid true with
    | none => simp [build_source_row, hg, hm] at h
    | some v =>
      obtain ⟨src_ref, w₀⟩ := v
      cases ht : targets_with_ids_loop app self.document self.line collection rels sid 0
          twi
          ((ext_relationships_loop app source_item exts
              (List.replicate (noc - 1) [], false)).1,
            (ext_relationships_loop app source_item exts
              (List.replicate (noc - 1) [], false)).2, w₀) with
      | none => simp [build_source_row, hg, hm, ht] at h
      | some v₂ =>
        obtain ⟨rights, covered, warns⟩ := v₂
        simp only [build_source_row, hg, hm, ht, Option.some.injEq, Prod.mk.injEq] at h
        obtain ⟨hl, hrs, hc, hw⟩ := h
        refine ⟨source_item, rfl, ⟨[src_ref], hl.symm⟩, ?_, ?_, ?_⟩
        · rw [← hrs, List.length_map]
          have h₁ := targets_with_ids_loop_fst_length app self.document self.line
            collection rels sid twi 0 _ _ ht
          dsimp only at h₁
          simp only [h₁, ext_relationships_loop_fst_length, List.length_replicate]
        · intro e he
          rw [← hrs] at he
          obtain ⟨cs₂, _, hcs⟩ := List.mem_map.mp he
          exact ⟨cs₂, hcs.symm⟩
        · have h₂ := targets_with_ids_loop_snd app self.document self.line collection
            rels sid twi 0 _ _ ht
          dsimp only at h₂
          simp only [ext_relationships_loop_snd, Bool.false_or] at h₂
          rw [← hc, h₂]

theorem build_ext_row_spec (app : App) (self : ItemMatrix) (noc : Nat)
    (ext_rel ext_source : String) (item_ids : List String) (l : Node) (rs : List Node)
    (c : Bool) (w : List Warning)
    (h : build_ext_row app self noc ext_rel ext_source item_ids = some (l, rs, c, w)) :
    l = Node.entry (add_ext_ref (make_external_item_ref app ext_source ext_rel) []) ∧
    rs.length = noc - 1 ∧ (∀ e ∈ rs, ∃ cs₂, e = Node.entry cs₂) ∧
    c = self.target.any (fun regex =>
      item_ids.any (fun t => app.re_match regex t)) := by
  cases ht : ext_row_regex_loop app self.document self.line item_ids 0 self.target
      (List.replicate (noc - 1) [], false, []) with
  | none => simp [build_ext_row, ht] at h
  | some v =>
    obtain ⟨rights, covered, warns⟩ := v
    simp only [build_ext_row, ht, Option.some.injEq, Prod.mk.injEq] at h
    obtain ⟨hl, hrs, hc, hw⟩ := h
    refine ⟨hl.symm, ?_, ?_, ?_⟩
    · rw [← hrs, List.length_map]
      have h₁ := ext_row_regex_loop_fst_length app self.document self.line item_ids
        self.target 0 _ _ ht
      dsimp only at h₁
      simp only [h₁, List.length_replicate]
    · intro e he
      rw [← hrs] at he
      obtain ⟨cs₂, _, hcs⟩ := List.mem_map.mp he
      exact ⟨cs₂, hcs.symm⟩
    · have h₂ := ext_row_regex_loop_snd app self.document self.line item_ids
        self.target 0 _ _ ht
      dsimp only at h₂
      simp only [Bool.false_or] at h₂
      rw [← hc, h₂]

/-- C1: the coverage flag of every row `perform_replacement` builds is true
exactly when some configured relationship was found for the row's source:
for a row built from a source item, when some external-relationship target
or some internal target related to it through the configured relationships
exists; for a row built from an external target, when some returned item id
matches one of the target regexes; and `_store_row` appends the row to
`rows.covered` exactly when the flag is set and to `rows.uncovered`
otherwise. -/
theorem itemMatrix_row_coverage :
    (∀ (app : App) (self : ItemMatrix) (collection : TraceableCollection) (noc : Nat)
        (rels exts : List String) (twi : List (List String)) (sid : String)
        (source_item : TraceableItem) (l : Node) (rs : List Node) (c : Bool)
        (w : List Warning),
      collection.get_item sid = some source_item →
      build_source_row app self collection noc rels exts twi sid = some (l, rs, c, w) →
      (c = true ↔ (∃ rel ∈ exts, source_item.iter_targets rel ≠ []) ∨
        ∃ tids ∈ twi, ∃ t ∈ tids, collection.are_related sid rels t = true)) ∧
    (∀ (app : App) (self : ItemMatrix) (noc : Nat) (ext_rel ext_source : String)
        (item_ids : List String) (l : Node) (rs : List Node) (c : Bool)
        (w : List Warning),
      build_ext_row app self noc ext_rel ext_source item_ids = some (l, rs, c, w) →
      (c = true ↔ ∃ regex ∈ self.target, ∃ t ∈ item_ids,
        app.re_match regex t = true)) ∧
    (∀ (rows : Rows) (l : Node) (rs : List Node) (c : Bool),
      (store_row rows l rs c).covered =
        (if c then rows.covered ++ [Node.row (l :: rs)] else rows.covered) ∧
      (store_row rows l rs c).uncovered =
        (if c then rows.uncovered else rows.uncovered ++ [Node.row (l :: rs)])) := by
  refine ⟨?_, ?_, fun rows l rs c => ⟨rfl, rfl⟩⟩
  · intro app self collection noc rels exts twi sid source_item l rs c w hg h
    obtain ⟨item, hg₂, _, _, _, hc⟩ := build_source_row_spec app self collection noc
      rels exts twi sid l rs c w h
    rw [hg] at hg₂
    obtain rfl : source_item = item := by
      simpa using hg₂
    rw [hc]
    simp [List.any_eq_true, List.isEmpty_iff]
  · intro app self noc ext_rel ext_source item_ids l rs c w h
    obtain ⟨_, _, _, hc⟩ := build_ext_row_spec app self noc ext_rel ext_source item_ids
      l rs c w h
    rw [hc]
    simp [List.any_eq_true]

/-- Witness for C1 at the concrete fixture: the single source row for `S` is
covered because `T` is related to it. -/
theorem itemMatrix_row_coverage_witness :
    wCollection.get_item "S" = some itemS ∧
    build_source_row wApp wSelf wCollection 2 ["fulfills"] [] [["T"]] "S" =
      some (Node.entry [wRefS], [Node.entry [wRefT]], true, []) ∧
    ((true : Bool) = true ↔ (∃ rel ∈ ([] : List String), itemS.iter_targets rel ≠ []) ∨
      ∃ tids ∈ [["T"]], ∃ t ∈ tids, wCollection.are_related "S" ["fulfills"] t = true) :=
  ⟨rfl, rfl,
    itemMatrix_row_coverage.1 wApp wSelf wCollection 2 ["fulfills"] [] [["T"]] "S"
      itemS (Node.entry [wRefS]) [Node.entry [wRefT]] true [] rfl rfl⟩

/-! ## Assembly of the replacement node -/

theorem perform_replacement_eq (app : App) (collection : TraceableCollection)
    (self : ItemMatrix) (rows : Rows) (warns : List Warning)
    (h : build_rows app collection self = some (rows, warns)) :
    perform_replacement app collection self =
      some (Node.container
        ([Node.admonition ["item"] [Node.title [Node.text self.title]]] ++
          (if self.stats then [Node.paragraph [Node.text (matrix_statistics rows)]]
           else []) ++
          [Node.table self.classes
            [Node.tgroup
              (List.replicate (max 2 (self.target.length + 1)) (Node.colspec 5) ++
                [Node.thead [Node.row (matrix_headings self)],
                 Node.tbody (matrix_body self rows)])]]), warns) := by
  simp only [perform_replacement, create_top_node, h]
  cases hs : self.stats <;> simp [node_add]

theorem perform_replacement_inv (app : App) (collection : TraceableCollection)
    (self : ItemMatrix) (out : Node) (warns : List Warning)
    (h : perform_replacement app collection self = some (out, warns)) :
    ∃ rows, build_rows app collection self = some (rows, warns) ∧
      out = Node.container
        ([Node.admonition ["item"] [Node.title [Node.text self.title]]] ++
          (if self.stats then [Node.paragraph [Node.text (matrix_statistics rows)]]
           else []) ++
          [Node.table self.classes
            [Node.tgroup
              (List.replicate (max 2 (self.target.length + 1)) (Node.colspec 5) ++
                [Node.thead [Node.row (matrix_headings self)],
                 Node.tbody (matrix_body self rows)])]]) := by
  cases hb : build_rows app collection self with
  | none => simp [perform_replacement, create_top_node, hb] at h
  | some v =>
    obtain ⟨rows, warns₂⟩ := v
    have he := perform_replacement_eq app collection self rows warns₂ hb
    rw [he] at h
    simp only [Option.some.injEq, Prod.mk.injEq] at h
    obtain ⟨hout, hw⟩ := h
    refine ⟨rows, ?_, hout.symm⟩
    rw [← hw]

/-! ## Row-shape invariant -/

theorem store_row_all (P : Node → Prop) (rows : Rows) (l : Node) (rs : List Node)
    (c : Bool) (hP : P (Node.row (l :: rs))) (hall : rows_all P rows) :
    rows_all P (store_row rows l rs c) := by
  obtain ⟨h₁, h₂, h₃⟩ := hall
  have hmem : ∀ (xs : List Node), (∀ r ∈ xs, P r) →
      ∀ r ∈ xs ++ [Node.row (l :: rs)], P r := by
    intro xs hxs r hr
    rcases List.mem_append.mp hr with hr | hr
    · exact hxs r hr
    · rw [List.mem_singleton.mp hr]
      exact hP
  refine ⟨?_, ?_, ?_⟩
  · rw [store_row_sorted_eq]
    exact hmem _ h₁
  · rw [store_row_covered_eq]
    cases c
    · simpa using h₂
    · simpa using hmem _ h₂
  · rw [store_row_uncovered_eq]
    cases c
    · simpa using hmem _ h₃
    · simpa using h₃

theorem build_rows_shape (app : App) (collection : TraceableCollection)
    (self : ItemMatrix) (rows : Rows) (warns : List Warning)
    (h : build_rows app collection self = some (rows, warns)) :
    rows_all (row_shape (max 2 (self.target.length + 1))) rows := by
  refine build_rows_inv app collection self
    (rows_all (row_shape (max 2 (self.target.length + 1)))) ?_ ?_ ?_ rows warns h
  · exact ⟨fun r hr => absurd hr (List.not_mem_nil r),
      fun r hr => absurd hr (List.not_mem_nil r),
      fun r hr => absurd hr (List.not_mem_nil r)⟩
  · intro rows₀ sid l rs c w hb hQ
    refine store_row_all _ rows₀ l rs c ?_ hQ
    obtain ⟨item, _, ⟨cs, hl⟩, hlen, hmemb, _⟩ := build_source_row_spec app self collection
      (max 2 (self.target.length + 1)) (matrix_relationships self collection).1
      (matrix_relationships self collection).2
      (self.target.map (fun target_regex => collection.get_items target_regex [])) sid
      l rs c w hb
    exact ⟨cs, rs, by rw [hl], hlen, hmemb⟩
  · intro rows₀ ext_rel ext_source item_ids l rs c w hb hQ
    refine store_row_all _ rows₀ l rs c ?_ hQ
    obtain ⟨hl, hlen, hmemb, _⟩ := build_ext_row_spec app self
      (max 2 (self.target.length + 1)) ext_rel ext_source item_ids l rs c w hb
    exact ⟨add_ext_ref (make_external_item_ref app ext_source ext_rel) [], rs,
      by rw [hl], hlen, hmemb⟩

theorem matrix_body_all (P : Node → Prop) (self : ItemMatrix) (rows : Rows)
    (hall : rows_all P rows) : ∀ r ∈ matrix_body self rows, P r := by
  obtain ⟨h₁, h₂, h₃⟩ := hall
  intro r hr
  unfold matrix_body at hr
  split_ifs at hr
  · exact h₁ r hr
  · rcases List.mem_append.mp hr with hr | hr
    · exact h₃ r hr
    · exact h₂ r hr
  · rcases List.mem_append.mp hr with hr | hr
    · exact h₂ r hr
    · exact h₃ r hr
  · exact absurd hr (List.not_mem_nil r)

theorem ext_sources_loop_sorted_append (app : App) (self : ItemMatrix) (noc : Nat)
    (ext_rel : String) :
    ∀ (m : List (String × List String)) (acc res : Rows × List Warning),
      ext_sources_loop app self noc ext_rel m acc = some res →
      ∃ new, res.1.sorted = acc.1.sorted ++ new := by
  intro m
  induction m with
  | nil =>
    intro acc res h
    simp only [ext_sources_loop, Option.some.injEq] at h
    exact ⟨[], by rw [← h]; simp⟩
  | cons p rest ih =>
    obtain ⟨es, ii⟩ := p
    intro acc res h
    simp only [ext_sources_loop] at h
    cases hb : build_ext_row app self noc ext_rel es ii with
    | none => rw [hb] at h; cases h
    | some v =>
      rw [hb] at h
      obtain ⟨l, rs, c, w⟩ := v
      obtain ⟨new, hnew⟩ := ih _ _ h
      refine ⟨[Node.row (l :: rs)] ++ new, ?_⟩
      dsimp only at hnew
      rw [hnew, store_row_sorted_eq]
      simp [List.append_assoc]

theorem ext_map_loop_sorted_append (app : App) (self : ItemMatrix) (noc : Nat) :
    ∀ (m : List (String × List (String × List String))) (acc res : Rows × List Warning),
      ext_map_loop app self noc m acc = some res →
      ∃ new, res.1.sorted = acc.1.sorted ++ new := by
  intro m
  induction m with
  | nil =>
    intro acc res h
    simp only [ext_map_loop, Option.some.injEq] at h
    exact ⟨[], by rw [← h]; simp⟩
  | cons p rest ih =>
    obtain ⟨ext_rel, tmap⟩ := p
    intro acc res h
    simp only [ext_map_loop] at h
    cases hs : ext_sources_loop app self noc ext_rel tmap acc with
    | none => rw [hs] at h; cases h
    | some acc₁ =>
      rw [hs] at h
      obtain ⟨new₁, h₁⟩ := ext_sources_loop_sorted_append app self noc ext_rel tmap
        acc acc₁ hs
      obtain ⟨new₂, h₂⟩ := ih _ _ h
      exact ⟨new₁ ++ new₂, by rw [h₂, h₁, List.append_assoc]⟩

/-- C2: the `group` option fixes the order of the emitted table body: with
an empty `group` the body is the rows in construction order (`rows.sorted`,
which lists the source rows first, in the order the source loop built them,
followed by the external-source rows); with `top` all uncovered rows precede
all covered rows; with `bottom` all covered rows precede all uncovered rows;
in all three cases the body is a permutation of the full row list, and the
emitted tbody holds exactly that body. -/
theorem itemMatrix_group_ordering (app : App) (collection : TraceableCollection)
    (self : ItemMatrix) (rows : Rows) (warns : List Warning)
    (h : build_rows app collection self = some (rows, warns)) :
    (∃ (acc₁ : Rows × List Warning) (ext_suffix : List Node),
      source_ids_loop app self collection (max 2 (self.target.length + 1))
        (matrix_relationships self collection).1 (matrix_relationships self collection).2
        (self.target.map (fun target_regex => collection.get_items target_regex []))
        (collection.get_items self.source self.filter_attributes) (⟨[], [], []⟩, []) =
        some acc₁ ∧
      rows.sorted = acc₁.1.sorted ++ ext_suffix) ∧
    (self.group = "" → matrix_body self rows = rows.sorted) ∧
    (self.group = "top" → matrix_body self rows = rows.uncovered ++ rows.covered) ∧
    (self.group = "bottom" → matrix_body self rows = rows.covered ++ rows.uncovered) ∧
    ((self.group = "" ∨ self.group = "top" ∨ self.group = "bottom") →
      (matrix_body self rows).Perm rows.sorted) ∧
    perform_replacement app collection self =
      some (Node.container
        ([Node.admonition ["item"] [Node.title [Node.text self.title]]] ++
          (if self.stats then [Node.paragraph [Node.text (matrix_statistics rows)]]
           else []) ++
          [Node.table self.classes
            [Node.tgroup
              (List.replicate (max 2 (self.target.length + 1)) (Node.colspec 5) ++
                [Node.thead [Node.row (matrix_headings self)],
                 Node.tbody (matrix_body self rows)])]]), warns) := by
  have hperm := build_rows_perm app collection self rows warns h
  refine ⟨?_, ?_, ?_, ?_, ?_, perform_replacement_eq app collection self rows warns h⟩
  · simp only [build_rows] at h
    cases hs : source_ids_loop app self collection (max 2 (self.target.length + 1))
        (matrix_relationships self collection).1 (matrix_relationships self collection).2
        (self.target.map (fun target_regex => collection.get_items target_regex []))
        (collection.get_items self.source self.filter_attributes) (⟨[], [], []⟩, []) with
    | none => rw [hs] at h; cases h
    | some acc₁ =>
      rw [hs] at h
      obtain ⟨new, hnew⟩ := ext_map_loop_sorted_append app self
        (max 2 (self.target.length + 1)) _ _ _ h
      exact ⟨acc₁, new, rfl, hnew⟩
  · intro hg
    simp [matrix_body, hg]
  · intro hg
    simp [matrix_body, hg]
  · intro hg
    simp [matrix_body, hg]
  · rintro (hg | hg | hg)
    · rw [matrix_body, if_pos hg]
    · rw [matrix_body, if_neg (by rw [hg]; decide), if_pos hg]
      exact List.perm_append_comm.trans hperm.symm
    · rw [matrix_body, if_neg (by rw [hg]; decide), if_neg (by rw [hg]; decide),
        if_pos hg]
      exact hperm.symm

/-- Witness for C2 at the concrete fixture (empty `group`): the body is the
single row in construction order and is a permutation of the row list. -/
theorem itemMatrix_group_ordering_witness :
    build_rows wApp wCollection wSelf = some (wRows, []) ∧
    matrix_body wSelf wRows = wRows.sorted ∧
    (matrix_body wSelf wRows).Perm wRows.sorted :=
  ⟨rfl, (itemMatrix_group_ordering wApp wCollection wSelf wRows [] rfl).2.1 rfl,
    (itemMatrix_group_ordering wApp wCollection wSelf wRows [] rfl).2.2.2.2.1
      (Or.inl rfl)⟩

/-- C3: the emitted table has exactly `max(2, len(target) + 1)` columns:
that many colspec nodes, one heading row with the source title followed by
the target titles, and every body row made of one source entry followed by
`number_of_columns - 1` target entries; with an empty or singleton `target`
the table has exactly 2 columns. -/
theorem itemMatrix_column_layout (app : App) (collection : TraceableCollection)
    (self : ItemMatrix) (out : Node) (warns : List Warning)
    (h : perform_replacement app collection self = some (out, warns)) :
    ∃ rows, build_rows app collection self = some (rows, warns) ∧
      out = Node.container
        ([Node.admonition ["item"] [Node.title [Node.text self.title]]] ++
          (if self.stats then [Node.paragraph [Node.text (matrix_statistics rows)]]
           else []) ++
          [Node.table self.classes
            [Node.tgroup
              (List.replicate (max 2 (self.target.length + 1)) (Node.colspec 5) ++
                [Node.thead [Node.row (matrix_headings self)],
                 Node.tbody (matrix_body self rows)])]]) ∧
      (List.replicate (max 2 (self.target.length + 1)) (Node.colspec 5)).length =
        max 2 (self.target.length + 1) ∧
      matrix_headings self = (self.sourcetitle :: self.targettitle).map
        (fun title => Node.entry [Node.paragraph [Node.text title]]) ∧
      (∀ r ∈ matrix_body self rows,
        ∃ cs rs, r = Node.row (Node.entry cs :: rs) ∧
          rs.length = max 2 (self.target.length + 1) - 1 ∧
          ∀ e ∈ rs, ∃ cs₂, e = Node.entry cs₂) ∧
      (self.target = [] → max 2 (self.target.length + 1) = 2) ∧
      (∀ tr, self.target = [tr] → max 2 (self.target.length + 1) = 2) := by
  obtain ⟨rows, hb, hout⟩ := perform_replacement_inv app collection self out warns h
  refine ⟨rows, hb, hout, List.length_replicate _ _, rfl, ?_, ?_, ?_⟩
  · exact matrix_body_all _ self rows
      (build_rows_shape app collection self rows warns hb)
  · intro ht
    rw [ht]
    decide
  · intro tr ht
    rw [ht]
    simp

/-- Witness for C3 at the concrete fixture: one target regex, hence a
2-column table. -/
theorem itemMatrix_column_layout_witness :
    perform_replacement wApp wCollection wSelf =
      some (Node.container
        [Node.admonition ["item"] [Node.title [Node.text "Matrix"]],
         Node.paragraph [Node.text "Statistics: 1 out of 1 covered: 100%"],
         Node.table []
           [Node.tgroup
             [Node.colspec 5, Node.colspec 5,
              Node.thead [Node.row [Node.entry [Node.paragraph [Node.text "Source"]],
                                    Node.entry [Node.paragraph [Node.text "Target"]]]],
              Node.tbody [wRowS]]]], []) ∧
    (∃ rows, build_rows wApp wCollection wSelf = some (rows, []) ∧
      Node.container
        [Node.admonition ["item"] [Node.title [Node.text "Matrix"]],
         Node.paragraph [Node.text "Statistics: 1 out of 1 covered: 100%"],
         Node.table []
           [Node.tgroup
             [Node.colspec 5, Node.colspec 5,
              Node.thead [Node.row [Node.entry [Node.paragraph [Node.text "Source"]],
                                    Node.entry [Node.paragraph [Node.text "Target"]]]],
              Node.tbody [wRowS]]]] = Node.container
        ([Node.admonition ["item"] [Node.title [Node.text wSelf.title]]] ++
          (if wSelf.stats then [Node.paragraph [Node.text (matrix_statistics rows)]]
           else []) ++
          [Node.table wSelf.classes
            [Node.tgroup
              (List.replicate (max 2 (wSelf.target.length + 1)) (Node.colspec 5) ++
                [Node.thead [Node.row (matrix_headings wSelf)],
                 Node.tbody (matrix_body wSelf rows)])]]) ∧
      (List.replicate (max 2 (wSelf.target.length + 1)) (Node.colspec 5)).length =
        max 2 (wSelf.target.length + 1) ∧
      matrix_headings wSelf = (wSelf.sourcetitle :: wSelf.targettitle).map
        (fun title => Node.entry [Node.paragraph [Node.text title]]) ∧
      (∀ r ∈ matrix_body wSelf rows,
        ∃ cs rs, r = Node.row (Node.entry cs :: rs) ∧
          rs.length = max 2 (wSelf.target.length + 1) - 1 ∧
          ∀ e ∈ rs, ∃ cs₂, e = Node.entry cs₂) ∧
      (wSelf.target = [] → max 2 (wSelf.target.length + 1) = 2) ∧
      (∀ tr, wSelf.target = [tr] → max 2 (wSelf.target.length + 1) = 2)) :=
  ⟨rfl, itemMatrix_column_layout wApp wCollection wSelf _ [] rfl⟩

/-- C4: the statistics line is `Statistics: c out of t covered: p%` with `c`
the number of covered rows, `t` the total number of rows and `p` the integer
floor of `100 * c / t`; a zero total is caught and yields `p = 0` (and then
`c = 0` too), so the computation never fails; the statistics paragraph is in
the output exactly when the `stats` flag is set. -/
theorem itemMatrix_statistics_line (app : App) (collection : TraceableCollection)
    (self : ItemMatrix) (rows : Rows) (warns : List Warning)
    (h : build_rows app collection self = some (rows, warns)) :
    matrix_statistics rows =
      "Statistics: " ++ toString rows.covered.length ++ " out of " ++
        toString rows.sorted.length ++ " covered: " ++
        toString (if rows.sorted.length = 0 then 0
          else 100 * rows.covered.length / rows.sorted.length) ++ "%" ∧
    (rows.sorted.length = 0 →
      rows.covered.length = 0 ∧
      (if rows.sorted.length = 0 then 0
        else 100 * rows.covered.length / rows.sorted.length) = 0) ∧
    (self.stats = true →
      perform_replacement app collection self =
        some (Node.container
          ([Node.admonition ["item"] [Node.title [Node.text self.title]]] ++
            [Node.paragraph [Node.text (matrix_statistics rows)]] ++
            [Node.table self.classes
              [Node.tgroup
                (List.replicate (max 2 (self.target.length + 1)) (Node.colspec 5) ++
                  [Node.thead [Node.row (matrix_headings self)],
                   Node.tbody (matrix_body self rows)])]]), warns)) ∧
    (self.stats = false →
      perform_replacement app collection self =
        some (Node.container
          ([Node.admonition ["item"] [Node.title [Node.text self.title]]] ++
            [Node.table self.classes
              [Node.tgroup
                (List.replicate (max 2 (self.target.length + 1)) (Node.colspec 5) ++
                  [Node.thead [Node.row (matrix_headings self)],
                   Node.tbody (matrix_body self rows)])]]), warns)) := by
  have he := perform_replacement_eq app collection self rows warns h
  refine ⟨rfl, ?_, ?_, ?_⟩
  · intro ht
    have hperm := build_rows_perm app collection self rows warns h
    have hs : rows.sorted = [] := List.length_eq_zero.mp ht
    rw [hs] at hperm
    have hnil : rows.covered ++ rows.uncovered = [] := hperm.symm.eq_nil
    have hcov : rows.covered = [] := (List.append_eq_nil.mp hnil).1
    rw [hcov, ht]
    exact ⟨rfl, rfl⟩
  · intro hstats
    rw [hstats] at he
    simpa using he
  · intro hstats
    rw [hstats] at he
    simpa using he

/-- Witness for C4 at the concrete fixture: 1 of 1 rows covered, 100%, and
the statistics paragraph present because the flag is set. -/
theorem itemMatrix_statistics_line_witness :
    build_rows wApp wCollection wSelf = some (wRows, []) ∧
    matrix_statistics wRows = "Statistics: 1 out of 1 covered: 100%" ∧
    matrix_statistics wRows =
      "Statistics: " ++ toString wRows.covered.length ++ " out of " ++
        toString wRows.sorted.length ++ " covered: " ++
        toString (if wRows.sorted.length = 0 then 0
          else 100 * wRows.covered.length / wRows.sorted.length) ++ "%" ∧
    perform_replacement wApp wCollection wSelf =
      some (Node.container
        ([Node.admonition ["item"] [Node.title [Node.text wSelf.title]]] ++
          [Node.paragraph [Node.text (matrix_statistics wRows)]] ++
          [Node.table wSelf.classes
            [Node.tgroup
              (List.replicate (max 2 (wSelf.target.length + 1)) (Node.colspec 5) ++
                [Node.thead [Node.row (matrix_headings wSelf)],
                 Node.tbody (matrix_body wSelf wRows)])]]), []) :=
  ⟨rfl, rfl,
    (itemMatrix_statistics_line wApp wCollection wSelf wRows [] rfl).1,
    (itemMatrix_statistics_line wApp wCollection wSelf wRows [] rfl).2.2.1 rfl⟩

/-- C7: `perform_replacement` replaces the ItemMatrix node by one container
whose children are, in order, the admonition holding the title, then (only
with the `stats` flag) the statistics paragraph, then the table; the
replacement is the single node handed to `replace_self`, and all emitted
nodes are docutils markup nodes. -/
theorem itemMatrix_replacement_structure (app : App) (collection : TraceableCollection)
    (self : ItemMatrix) (rows : Rows) (warns : List Warning)
    (h : build_rows app collection self = some (rows, warns)) :
    create_top_node self.nocaptions self.document self.line self.title none =
      some (Node.container
        [Node.admonition ["item"] [Node.title [Node.text self.title]]], []) ∧
    (self.stats = true →
      perform_replacement app collection self =
        some (Node.container
          [Node.admonition ["item"] [Node.title [Node.text self.title]],
           Node.paragraph [Node.text (matrix_statistics rows)],
           Node.table self.classes
             [Node.tgroup
               (List.replicate (max 2 (self.target.length + 1)) (Node.colspec 5) ++
                 [Node.thead [Node.row (matrix_headings self)],
                  Node.tbody (matrix_body self rows)])]], warns)) ∧
    (self.stats = false →
      perform_replacement app collection self =
        some (Node.container
          [Node.admonition ["item"] [Node.title [Node.text self.title]],
           Node.table self.classes
             [Node.tgroup
               (List.replicate (max 2 (self.target.length + 1)) (Node.colspec 5) ++
                 [Node.thead [Node.row (matrix_headings self)],
                  Node.tbody (matrix_body self rows)])]], warns)) := by
  have he := perform_replacement_eq app collection self rows warns h
  refine ⟨rfl, ?_, ?_⟩
  · intro hstats
    rw [hstats] at he
    simpa using he
  · intro hstats
    rw [hstats] at he
    simpa using he

/-- Witness for C7 at the concrete fixture: container children are the
admonition, the statistics paragraph and the table, in that order. -/
theorem itemMatrix_replacement_structure_witness :
    build_rows wApp wCollection wSelf = some (wRows, []) ∧
    create_top_node wSelf.nocaptions wSelf.document wSelf.line wSelf.title none =
      some (Node.container
        [Node.admonition ["item"] [Node.title [Node.text wSelf.title]]], []) ∧
    perform_replacement wApp wCollection wSelf =
      some (Node.container
        [Node.admonition ["item"] [Node.title [Node.text wSelf.title]],
         Node.paragraph [Node.text (matrix_statistics wRows)],
         Node.table wSelf.classes
           [Node.tgroup
             (List.replicate (max 2 (wSelf.target.length + 1)) (Node.colspec 5) ++
               [Node.thead [Node.row (matrix_headings wSelf)],
                Node.tbody (matrix_body wSelf wRows)])]], []) :=
  ⟨rfl, (itemMatrix_replacement_structure wApp wCollection wSelf wRows [] rfl).1,
    (itemMatrix_replacement_structure wApp wCollection wSelf wRows [] rfl).2.1 rfl⟩

/-- C5: with an empty `type` option the relationships considered are exactly
the collection's relations that are not external (`ext_`-prefixed ids), the
external-relationship list is empty, the external-targets map is empty and
the external phases of the row construction do nothing, so no external
references appear in the matrix; with a non-empty `type` the external
relationships processed are exactly the listed relationships whose id is
external. -/
theorem itemMatrix_relationship_selection (self : ItemMatrix)
    (collection : TraceableCollection) :
    (self.type = [] →
      matrix_relationships self collection =
        (collection.iter_relations.filter (fun rel => !(is_relation_external rel)),
          []) ∧
      ext_relations_to_target_map collection self.source
        (matrix_relationships self collection).2 [] = [] ∧
      (∀ (app : App) (source_item : TraceableItem) (acc : List (List Node) × Bool),
        ext_relationships_loop app source_item (matrix_relationships self collection).2
          acc = acc) ∧
      (∀ (app : App) (noc : Nat) (acc : Rows × List Warning),
        ext_map_loop app self noc
          (ext_relations_to_target_map collection self.source
            (matrix_relationships self collection).2 []) acc = some acc)) ∧
    (self.type ≠ [] →
      (matrix_relationships self collection).1 = self.type ∧
      (matrix_relationships self collection).2 =
        self.type.filter (fun rel => is_relation_external rel)) := by
  constructor
  · intro ht
    have hm : matrix_relationships self collection =
        (collection.iter_relations.filter (fun rel => !(is_relation_external rel)),
          []) := by
      simp [matrix_relationships, ht]
    refine ⟨hm, ?_, ?_, ?_⟩
    · rw [hm]
      rfl
    · intro app source_item acc
      rw [hm]
      rfl
    · intro app noc acc
      rw [hm]
      rfl
  · intro ht
    constructor
    · simp [matrix_relationships, ht]
    · simp [matrix_relationships, ht]

/-- Witness for C5 at the concrete fixture: with `type` empty only the
non-external relation `fulfills` is considered; listing both relations makes
`ext_jira` the only external one. -/
theorem itemMatrix_relationship_selection_witness :
    wSelf.type = [] ∧
    matrix_relationships wSelf wCollection =
      (wCollection.iter_relations.filter (fun rel => !(is_relation_external rel)),
        []) ∧
    wCollection.iter_relations.filter (fun rel => !(is_relation_external rel)) =
      ["fulfills"] ∧
    (matrix_relationships { wSelf with type := ["fulfills", "ext_jira"] }
      wCollection).2 =
      ["fulfills", "ext_jira"].filter (fun rel => is_relation_external rel) ∧
    ["fulfills", "ext_jira"].filter (fun rel => is_relation_external rel) =
      ["ext_jira"] :=
  ⟨rfl,
    ((itemMatrix_relationship_selection wSelf wCollection).1 rfl).1,
    rfl,
    ((itemMatrix_relationship_selection { wSelf with type := ["fulfills", "ext_jira"] }
      wCollection).2 (by simp)).2,
    rfl⟩

/-- C6: the directive reports the target/targettitle count warning exactly
when more than one target regex is given and the counts differ, and it
always returns exactly one ItemMatrix node. -/
theorem itemMatrixDirective_target_count_warning (env_docname : String) (lineno : Nat)
    (classes : List String) (title : String)
    (filter_attributes : List (String × String)) (target : List String)
    (source : String) (targettitle : List String) (sourcetitle : String)
    (type_option : List String) (group_option : String) (stats nocaptions : Bool) :
    (itemMatrixDirective_run env_docname lineno classes title filter_attributes target
      source targettitle sourcetitle type_option group_option stats
      nocaptions).1.length = 1 ∧
    ((itemMatrixDirective_run env_docname lineno classes title filter_attributes target
      source targettitle sourcetitle type_option group_option stats
      nocaptions).2 ≠ [] ↔
      (target.length > 1 ∧ target.length ≠ targettitle.length)) := by
  constructor
  · rfl
  · simp only [itemMatrixDirective_run]
    by_cases hc : target.length > 1 ∧ target.length ≠ targettitle.length
    · rw [if_pos hc]
      simpa using hc
    · rw [if_neg hc]
      simpa using hc

/-- Witness for C6: two targets and one target title warn; the run still
returns one node. -/
theorem itemMatrixDirective_target_count_warning_witness :
    (itemMatrixDirective_run "doc" 3 [] "t" [] ["a", "b"] "" ["x"] "s" [] "" false
      false).1.length = 1 ∧
    ((itemMatrixDirective_run "doc" 3 [] "t" [] ["a", "b"] "" ["x"] "s" [] "" false
      false).2 ≠ [] ↔
      ((["a", "b"] : List String).length > 1 ∧
        (["a", "b"] : List String).length ≠ (["x"] : List String).length)) :=
  itemMatrixDirective_target_count_warning "doc" 3 [] "t" [] ["a", "b"] "" ["x"] "s"
    [] "" false false

/-- C9: `make_external_item_ref` returns `None` exactly when the
relationship has no configured URL; otherwise it returns a paragraph holding
a target node and a link whose URI is the configured template with each
`fieldN` placeholder (N counted from 1) replaced by the N-th colon-separated
field of the target text. -/
theorem make_external_item_ref_spec (app : App) (target_text relationship : String) :
    (make_external_item_ref app target_text relationship = none ↔
      List.lookup relationship
        app.config.traceability_external_relationship_to_url = none) ∧
    (∀ url₀,
      List.lookup relationship
        app.config.traceability_external_relationship_to_url = some url₀ →
      make_external_item_ref app target_text relationship =
        some (Node.paragraph
          [Node.target [app.make_id target_text],
           Node.reference
             (some (substitute_fields url₀ 0 (pySplit ':' target_text))) none []
             [Node.text target_text]])) := by
  cases hl : List.lookup relationship
      app.config.traceability_external_relationship_to_url with
  | none =>
    refine ⟨by simp [make_external_item_ref, hl], ?_⟩
    intro url₀ hurl
    cases hurl
  | some url₁ =>
    refine ⟨by simp [make_external_item_ref, hl], ?_⟩
    intro url₀ hurl
    obtain rfl : url₁ = url₀ := by simpa using hurl
    simp [make_external_item_ref, hl]

/-- Witness for C9 at the concrete fixture: `JIRA:1` with the template
`http://tracker/field1/field2` links to `http://tracker/JIRA/1`; an
unconfigured relationship yields `None`. -/
theorem make_external_item_ref_spec_witness :
    List.lookup "ext_jira" wApp.config.traceability_external_relationship_to_url =
      some "http://tracker/field1/field2" ∧
    make_external_item_ref wApp "JIRA:1" "ext_jira" =
      some (Node.paragraph
        [Node.target [wApp.make_id "JIRA:1"],
         Node.reference
           (some (substitute_fields "http://tracker/field1/field2" 0
             (pySplit ':' "JIRA:1"))) none [] [Node.text "JIRA:1"]]) ∧
    substitute_fields "http://tracker/field1/field2" 0 (pySplit ':' "JIRA:1") =
      "http://tracker/JIRA/1" ∧
    make_external_item_ref wApp "JIRA:1" "missing_rel" = none :=
  ⟨rfl,
    (make_external_item_ref_spec wApp "JIRA:1" "ext_jira").2
      "http://tracker/field1/field2" rfl,
    rfl,
    (make_external_item_ref_spec wApp "JIRA:1" "missing_rel").1.mpr rfl⟩

/-- C10: for an item id whose item is a placeholder, `make_internal_item_ref`
does not raise: with no usable `undefined-reference` notification item it
reports the warning and returns a paragraph holding only the broken-link
text and no reference; with a notification item the returned reference links
to the notification item's document and anchor instead. -/
theorem make_internal_item_ref_placeholder :
    (∀ (app : App) (doc : String) (line : Nat) (item_id : String)
        (item_info : TraceableItem) (show_caption : Bool),
      app.collection.get_item item_id = some item_info →
      item_info.placeholder = true →
      (∀ nid, List.lookup "undefined-reference"
          app.config.traceability_notifications = some nid →
        app.collection.get_item nid = none) →
      make_internal_item_ref app doc line item_id show_caption =
        some (Node.paragraph [Node.text (item_id ++ " not defined, broken link")],
          [⟨"Traceability: cannot link to \x27" ++ item_info.id ++
              "\x27, item is not defined", doc, line⟩])) ∧
    (∀ (app : App) (doc : String) (line : Nat) (item_id : String)
        (item_info : TraceableItem) (show_caption : Bool) (nid : String)
        (notif : TraceableItem) (uri : String),
      app.collection.get_item item_id = some item_info →
      item_info.placeholder = true →
      List.lookup "undefined-reference" app.config.traceability_notifications =
        some nid →
      app.collection.get_item nid = some notif →
      app.builder.get_relative_uri doc notif.docname = some uri →
      ∃ ref_classes innernode,
        make_internal_item_ref app doc line item_id show_caption =
          some (Node.paragraph
            [Node.reference (some (uri ++ "#" ++ nid)) (some notif.docname)
              ref_classes [innernode]], [])) := by
  constructor
  · intro app doc line item_id item_info show_caption hg hph hnone
    cases hl : List.lookup "undefined-reference"
        app.config.traceability_notifications with
    | none =>
      simp [make_internal_item_ref, hg, hph, hl, has_warned_about_undefined]
    | some nid =>
      have hn := hnone nid hl
      simp [make_internal_item_ref, hg, hph, hl, hn, has_warned_about_undefined]
  · intro app doc line item_id item_info show_caption nid notif uri hg hph hl hn huri
    have hmain : make_internal_item_ref app doc line item_id show_caption =
        some (build_item_reference app doc item_info item_id show_caption
          (some (nid, notif)), []) := by
      simp [make_internal_item_ref, hg, hph, hl, hn]
    refine ⟨(match find_colors_for_class app.re_search
        app.config.traceability_hyperlink_colors item_id with
      | none => []
      | some cs => [app.config.traceability_class_names cs]),
      (match (get_caption_info item_info show_caption).2 with
       | some hover =>
         if app.builder.isLaTeX then
           Node.emphasis (item_id ++ (get_caption_info item_info show_caption).1) []
             [Node.text (item_id ++ (get_caption_info item_info show_caption).1)]
         else
           Node.emphasis (item_id ++ (get_caption_info item_info show_caption).1)
             ["has_hidden_caption"]
             [Node.text (item_id ++ (get_caption_info item_info show_caption).1), hover]
       | none => Node.emphasis (item_id ++ (get_caption_info item_info show_caption).1)
           [] [Node.text (item_id ++ (get_caption_info item_info show_caption).1)]), ?_⟩
    rw [hmain]
    simp only [build_item_reference, huri]
    rfl

/-- Witness for C10 at the concrete fixture: the placeholder `U` yields the
broken-link paragraph and warning without a notification item, and a
reference into `doc_n#NOTIF` with one. -/
theorem make_internal_item_ref_placeholder_witness :
    wApp.collection.get_item "U" = some itemU ∧
    itemU.placeholder = true ∧
    make_internal_item_ref wApp "doc" 7 "U" true =
      some (Node.paragraph [Node.text ("U" ++ " not defined, broken link")],
        [⟨"Traceability: cannot link to \x27" ++ itemU.id ++
            "\x27, item is not defined", "doc", 7⟩]) ∧
    (∃ ref_classes innernode,
      make_internal_item_ref wAppNotif "doc" 7 "U" true =
        some (Node.paragraph
          [Node.reference (some ("rel/doc_n" ++ "#" ++ "NOTIF")) (some itemN.docname)
            ref_classes [innernode]], [])) :=
  ⟨rfl, rfl,
    make_internal_item_ref_placeholder.1 wApp "doc" 7 "U" itemU true rfl rfl
      (fun nid h => by cases h),
    make_internal_item_ref_placeholder.2 wAppNotif "doc" 7 "U" itemU true "NOTIF"
      itemN "rel/doc_n" rfl rfl rfl rfl rfl⟩
